import Mathlib

/-!
Verification of the AvatarTalk expressive-webchat conversation orchestrator
(`src/python/expressive-webchat/src/orchestrator.py`, `avatartalk_client.py`,
`config.py`, `app.py`) via a shallow embedding in Lean 4.

The embedding translates the Python source directly:
* strings are Lean `String`s; Python `str.strip`, `" ".join`, truthiness tests
  and the two regular expressions used by `SentenceAccumulator` are modelled
  character-exactly over the ASCII alphabet that the patterns involve;
* the orchestrator object state is the structure `OrchState`; each event
  handler or method becomes a pure state-transformer that additionally returns
  the externally observable effects (scheduled response tasks, audio chunks
  forwarded to Deepgram, awaited terminal task statuses);
* asyncio tasks are modelled by `TaskStatus` (running / done / cancelled);
  `task.cancel()` followed by `await task` is `cancelAwait`.
-/

/-- ASCII whitespace, as matched by Python `\s` and stripped by `str.strip`
for the ASCII range. -/
def pyIsSpace (c : Char) : Bool :=
  c = ' ' || c = '\t' || c = '\n' || c = '\x0d' || c = '\x0b' || c = '\x0c'

/-- Python `\w` word character (ASCII range). -/
def pyIsWordChar (c : Char) : Bool :=
  c.isAlpha || c.isDigit || c = '_'

/-- Python `str.strip()` on the ASCII whitespace set. -/
def pyStrip (s : String) : String :=
  String.mk (((s.toList.dropWhile pyIsSpace).reverse.dropWhile pyIsSpace).reverse)

/-- Python truthiness of an `Optional[str]`: `None` and `""` are falsy. -/
def pyTruthyStr : Option String → Bool
  | none => false
  | some s => s ≠ ""

/-- The state of `SentenceAccumulator` (`orchestrator.py`):
`buffer`, `_json_prefix_buffer`, `_json_complete`. -/
structure AccState where
  buffer : String
  json_prefix_buffer : String
  json_complete : Bool
deriving DecidableEq, Repr

/-- `SentenceAccumulator.__init__`. -/
def AccState.init : AccState :=
  { buffer := "", json_prefix_buffer := "", json_complete := false }

/-- Matcher for `EXPRESSION_PATTERN`, the anchored regular expression
`^\s*\{\s*"expression"\s*:\s*"(\w+)"\s*\}\s*\n?` of `SentenceAccumulator`.
Returns the captured word and the input after the match end.  The greedy
trailing `\s*` already absorbs any newline, so `\s*\n?` consumes exactly the
maximal whitespace run after the closing brace. -/
def expressionMatch (cs : List Char) : Option (String × List Char) :=
  match (cs.dropWhile pyIsSpace) with
  | c :: s2 =>
    if c = '\x7b' then
      let s3 := s2.dropWhile pyIsSpace
      if s3.take 12 = "\"expression\"".toList then
        match (s3.drop 12).dropWhile pyIsSpace with
        | ':' :: s5 =>
          match s5.dropWhile pyIsSpace with
          | '"' :: s7 =>
            let w := s7.takeWhile pyIsWordChar
            if w = [] then none
            else
              match s7.dropWhile pyIsWordChar with
              | '"' :: s9 =>
                match s9.dropWhile pyIsSpace with
                | c10 :: s11 =>
                  if c10 = '\x7d' then some (String.mk w, s11.dropWhile pyIsSpace)
                  else none
                | [] => none
              | _ => none
          | _ => none
        | _ => none
      else none
    else none
  | [] => none

/-- `SentenceAccumulator.try_extract_expression`.  Returns the Python return
value `(expression, remaining_content)` together with the updated accumulator
state. -/
def try_extract_expression (a : AccState) (content : String) :
    (Option String × String) × AccState :=
  if a.json_complete then ((none, content), a)
  else
    let buf := a.json_prefix_buffer ++ content
    match expressionMatch buf.toList with
    | some (expr, remaining) =>
        ((some expr, String.mk remaining),
         { a with json_prefix_buffer := "", json_complete := true })
    | none =>
        if 100 < buf.length ∨ buf.toList.contains '\n' then
          ((none, buf), { a with json_prefix_buffer := "", json_complete := true })
        else
          ((none, ""), { a with json_prefix_buffer := buf })

/-- `SentenceAccumulator.buffer_has_expression_prefix` (renamed: still
accumulating a potential JSON expression lookahead). -/
def buffer_has_expression_pending (a : AccState) : Bool :=
  a.json_prefix_buffer ≠ "" && !a.json_complete

/-- One `re.search` of `SENTENCE_END_PATTERN = ([.!?])(?:\s+|$)` on the
buffer: splits the buffer at `match.end()` (earliest sentence-terminal
punctuation followed by a maximal whitespace run, or at end of input),
returning `(buffer[:end], buffer[end:])`; `none` when there is no match. -/
def sentenceSplit : List Char → Option (List Char × List Char)
  | [] => none
  | c :: rest =>
    if c = '.' ∨ c = '!' ∨ c = '?' then
      match rest with
      | [] => some ([c], [])
      | d :: _ =>
        if pyIsSpace d then
          some (c :: rest.takeWhile pyIsSpace, rest.dropWhile pyIsSpace)
        else
          match sentenceSplit rest with
          | some (p, q) => some (c :: p, q)
          | none => none
    else
      match sentenceSplit rest with
      | some (p, q) => some (c :: p, q)
      | none => none

theorem sentenceSplit_some : ∀ {cs p q : List Char},
    sentenceSplit cs = some (p, q) → p ≠ [] ∧ p ++ q = cs := by
  intro cs
  induction cs with
  | nil => intro p q h; simp [sentenceSplit] at h
  | cons c rest ih =>
    intro p q h
    rw [sentenceSplit.eq_def] at h
    split at h
    · simp at h
    · rename_i c' rest' heq
      injection heq with h1 h2
      subst h1; subst h2
      split at h
      · split at h
        · simp at h
          obtain ⟨hp, hq⟩ := h
          subst hp; subst hq
          refine ⟨by simp, ?_⟩
          simp [List.takeWhile_append_dropWhile]
        · rename_i d tl heq2
          split at h
          · simp at h
            obtain ⟨hp, hq⟩ := h
            subst hp; subst hq
            refine ⟨by simp, ?_⟩
            simp [List.takeWhile_append_dropWhile]
          · split at h
            · rename_i p' q' hrec
              simp at h
              obtain ⟨hp, hq⟩ := h
              obtain ⟨hne, hpq⟩ := ih hrec
              subst hp; subst hq
              exact ⟨by simp, by simp [hpq]⟩
            · simp at h
      · split at h
        · rename_i p' q' hrec
          simp at h
          obtain ⟨hp, hq⟩ := h
          obtain ⟨hne, hpq⟩ := ih hrec
          subst hp; subst hq
          exact ⟨by simp, by simp [hpq]⟩
        · simp at h

/-- Fuelled version of the `while True` loop of
`SentenceAccumulator.add_chunk`: repeatedly extract sentences at
`SENTENCE_END_PATTERN` matches; when no match remains, force-flush the whole
buffer if it exceeds 400 characters.  Each iteration strictly shortens the
buffer, so `cs.length + 1` fuel always suffices (`splitLoop_eq`). -/
def splitLoopF : Nat → List Char → List String × List Char
  | 0, cs => ([], cs)
  | fuel + 1, cs =>
    match sentenceSplit cs with
    | none => if 400 < cs.length then ([String.mk cs], []) else ([], cs)
    | some (p, q) =>
        let sent := pyStrip (String.mk p)
        let (ss, rest) := splitLoopF fuel q
        ((if sent = "" then ss else sent :: ss), rest)

/-- The `while True` loop of `SentenceAccumulator.add_chunk`. -/
def splitLoop (cs : List Char) : List String × List Char :=
  splitLoopF (cs.length + 1) cs

theorem sentenceSplit_some_shorter {cs p q : List Char}
    (h : sentenceSplit cs = some (p, q)) : q.length < cs.length := by
  obtain ⟨h1, h2⟩ := sentenceSplit_some h
  have h3 : p.length + q.length = cs.length := by
    rw [← h2, List.length_append]
  have h4 : 0 < p.length := List.length_pos.mpr h1
  omega

theorem splitLoopF_fuel_irrel : ∀ (f1 : Nat) {f2 : Nat} {cs : List Char},
    cs.length < f1 → cs.length < f2 → splitLoopF f1 cs = splitLoopF f2 cs := by
  intro f1
  induction f1 with
  | zero => intro f2 cs h1 _; omega
  | succ f ih =>
    intro f2 cs h1 h2
    cases f2 with
    | zero => omega
    | succ f2' =>
      simp only [splitLoopF]
      cases hs : sentenceSplit cs with
      | none => rfl
      | some pq =>
        obtain ⟨p, q⟩ := pq
        have hlt := sentenceSplit_some_shorter hs
        have heq : splitLoopF f q = splitLoopF f2' q := ih (by omega) (by omega)
        simp [heq]

/-- The defining equation of `splitLoop`, with full fuel discharged. -/
theorem splitLoop_eq (cs : List Char) :
    splitLoop cs =
      match sentenceSplit cs with
      | none => if 400 < cs.length then ([String.mk cs], []) else ([], cs)
      | some (p, q) =>
          let sent := pyStrip (String.mk p)
          let (ss, rest) := splitLoop q
          ((if sent = "" then ss else sent :: ss), rest) := by
  show splitLoopF (cs.length + 1) cs = _
  simp only [splitLoopF]
  cases hs : sentenceSplit cs with
  | none => rfl
  | some pq =>
    obtain ⟨p, q⟩ := pq
    have hlt := sentenceSplit_some_shorter hs
    have heq : splitLoopF cs.length q = splitLoopF (q.length + 1) q :=
      splitLoopF_fuel_irrel _ (by omega) (by omega)
    simp only [heq]
    rfl

/-- `SentenceAccumulator.add_chunk`. -/
def add_chunk (a : AccState) (content : String) : List String × AccState :=
  if content = "" then ([], a)
  else
    let buf := a.buffer ++ content
    let (ss, rest) := splitLoop buf.toList
    (ss, { a with buffer := String.mk rest })

/-- `SentenceAccumulator.flush`. -/
def AccState.flush (a : AccState) : String × AccState :=
  (pyStrip a.json_prefix_buffer ++ pyStrip a.buffer,
   { a with json_prefix_buffer := "", buffer := "" })

/-- Status of an asyncio task: running, completed, or cancelled. -/
inductive TaskStatus
  | running
  | done
  | cancelled
deriving DecidableEq, Repr

/-- `task.cancel()` followed by `await task` (absorbing `CancelledError`):
a running task ends cancelled, a finished task is left as is. -/
def cancelAwait : TaskStatus → TaskStatus
  | .running => .cancelled
  | t => t

/-- A task status that is terminal (completed or cancelled). -/
def TaskStatus.isTerminal : TaskStatus → Bool
  | .running => false
  | _ => true

/-- The `AvatarTalkClient` connection state (`avatartalk_client.py`):
`_connected`, `_closing`, `_listen_task`, `ws`, `session_id`.  `ws : Bool`
records whether a WebSocket object is referenced. -/
structure ATState where
  connected : Bool
  closing : Bool
  listen_task : Option TaskStatus
  ws : Bool
  session_id : Option String
deriving DecidableEq, Repr

/-- `AvatarTalkClient.disconnect`: a no-op when already closing; otherwise
cancels and awaits the listen task, closes and releases the WebSocket and
session id.  Also returns the awaited terminal statuses. -/
def AvatarTalkClient.disconnect (a : ATState) : ATState × List TaskStatus :=
  if a.closing then (a, [])
  else
    ({ connected := false, closing := true, listen_task := none,
       ws := false, session_id := none },
     (a.listen_task.map cancelAwait).toList)

/-- A conversation-history entry (Python `{"role": ..., "content": ...}`). -/
structure ChatMsg where
  role : String
  content : String
deriving DecidableEq, Repr

/-- The mutable state of `ConversationOrchestrator` relevant to turn
handling, audio gating, history, audio configuration and teardown
(`orchestrator.py`, `__init__`).  The Deepgram audio queue is a FIFO list;
`none` entries are the `None` stop sentinel put by `stop_session`. -/
structure OrchState where
  session_active : Bool
  is_listening : Bool
  avatar_turn_active : Bool
  ignore_transcripts : Bool
  pause_audio_sending : Bool
  transcript_buffer : List String
  audio_sample_rate : Nat
  audio_channels : Nat
  audio_configured : Bool
  dg_connection : Bool
  dg_audio_queue : Option (List (Option (List Nat)))
  dg_worker_task : Option TaskStatus
  dg_listen_task : Option TaskStatus
  pending_tasks : List TaskStatus
  conversation_history : List ChatMsg
  max_history_messages : Nat
  avatartalk : ATState
deriving DecidableEq, Repr

/-- `ConversationOrchestrator.__init__` together with the freshly
constructed `AvatarTalkClient`. -/
def initState : OrchState :=
  { session_active := false, is_listening := false, avatar_turn_active := false,
    ignore_transcripts := false, pause_audio_sending := false,
    transcript_buffer := [], audio_sample_rate := 16000, audio_channels := 1,
    audio_configured := false, dg_connection := false, dg_audio_queue := none,
    dg_worker_task := none, dg_listen_task := none, pending_tasks := [],
    conversation_history := [], max_history_messages := 30,
    avatartalk := { connected := false, closing := false, listen_task := none,
                    ws := false, session_id := none } }

/-- The synchronous turn-switch block executed inside the Deepgram message
callbacks before the response task is scheduled (`orchestrator.py`
lines 304-306, 448-450, 472-474): set `_ignore_transcripts` and
`_pause_audio_sending` and clear the transcript buffer. -/
def turnSwitchSync (s : OrchState) : OrchState :=
  { s with ignore_transcripts := true, pause_audio_sending := true,
           transcript_buffer := [] }

/-- Messages delivered to the Flux `on_message` callback
(`_connect_deepgram_flux`): the `type` field together with, for `TurnInfo`,
the `event` and `transcript` fields. -/
inductive FluxMessage
  | connected
  | fatalError (message : String)
  | turnInfo (event : String) (transcript : String)
  | other
deriving DecidableEq, Repr

/-- The final transcript computed on a Flux `EndOfTurn`
(`final_transcript = transcript_text or " ".join(self.transcript_buffer)`),
given the buffer state at entry to the handler. -/
def fluxFinalTranscript (s : OrchState) (transcript : String) : String :=
  pyStrip (if transcript ≠ "" then transcript
           else String.intercalate " " s.transcript_buffer)

/-- The `on_message` callback registered on the Flux (listen.v2) connection.
Returns the updated orchestrator state and the list of transcripts for which
a `_handle_user_turn` response task was scheduled via `_create_tracked_task`.
The state is mutated synchronously inside the callback; the scheduled tasks
have not yet run. -/
def flux_on_message (s : OrchState) : FluxMessage → OrchState × List String
  | .connected => (s, [])
  | .fatalError _ => ({ s with is_listening := false }, [])
  | .turnInfo event transcript =>
      if s.ignore_transcripts then (s, [])
      else
        let s1 := if transcript ≠ "" then
            { s with transcript_buffer := s.transcript_buffer ++ [transcript] }
          else s
        if event = "EndOfTurn" then
          let finalT := fluxFinalTranscript s transcript
          if finalT ≠ "" then (turnSwitchSync s1, [finalT])
          else (s1, [])
        else (s1, [])
  | .other => (s, [])

/-- Messages delivered to the Nova `on_message` callback
(`_connect_deepgram_nova`).  For `Results`, `channel_alternatives` is `none`
when the message has no channel, and otherwise the list of alternatives (the
transcript of the first is used). -/
inductive NovaMessage
  | results (from_finalize : Bool) (channel_alternatives : Option (List String))
      (is_final : Bool) (speech_final : Bool)
  | utteranceEnd
  | speechStarted
  | metadata
  | other
deriving DecidableEq, Repr

/-- The `on_message` callback registered on the Nova (listen.v1) connection.
Returns the updated state and the transcripts for which a
`_handle_user_turn` response task was scheduled. -/
def nova_on_message (s : OrchState) : NovaMessage → OrchState × List String
  | .results from_finalize channel_alternatives is_final speech_final =>
      if from_finalize then (s, [])
      else if s.ignore_transcripts then (s, [])
      else
        match channel_alternatives with
        | none => (s, [])
        | some [] => (s, [])
        | some (transcript :: _) =>
            if transcript ≠ "" then
              if speech_final then
                let s1 := { s with
                  transcript_buffer := s.transcript_buffer ++ [transcript] }
                let finalT := pyStrip (String.intercalate " " s1.transcript_buffer)
                if finalT ≠ "" then (turnSwitchSync s1, [finalT])
                else (s1, [])
              else if is_final then
                ({ s with
                   transcript_buffer := s.transcript_buffer ++ [transcript] }, [])
              else (s, [])
            else (s, [])
  | .utteranceEnd =>
      if s.ignore_transcripts then (s, [])
      else if s.transcript_buffer ≠ [] then
        let finalT := pyStrip (String.intercalate " " s.transcript_buffer)
        if finalT ≠ "" then (turnSwitchSync s, [finalT])
        else (s, [])
      else (s, [])
  | _ => (s, [])

/-- `ConversationOrchestrator._handle_ready_to_listen`: ignored when the
session is inactive or while `avatar_turn_active` still holds; otherwise
clears the transcript buffer, re-enables transcripts and audio sending, and
turns the microphone back on. -/
def handle_ready_to_listen (s : OrchState) : OrchState :=
  if !s.session_active then s
  else if s.avatar_turn_active then s
  else
    let s1 := { s with transcript_buffer := [], ignore_transcripts := false,
                       pause_audio_sending := false }
    if !s1.is_listening then { s1 with is_listening := true } else s1

/-- `ConversationOrchestrator._ensure_deepgram_connection`: when no live
worker task exists, creates the audio queue (if absent) and spawns the
Deepgram worker task. -/
def ensure_deepgram_connection (s : OrchState) : OrchState :=
  if s.dg_worker_task = some TaskStatus.running then s
  else
    { s with dg_audio_queue := some (s.dg_audio_queue.getD []),
             dg_worker_task := some TaskStatus.running }

/-- `ConversationOrchestrator.process_audio`: drops the frame unless the
session is active, listening, and audio has been configured; otherwise
lazily ensures the Deepgram connection and enqueues the frame on the
internal audio queue. -/
def process_audio (s : OrchState) (audio_data : List Nat) : OrchState :=
  if !s.session_active || !s.is_listening then s
  else if !s.audio_configured then s
  else
    let s1 := ensure_deepgram_connection s
    match s1.dg_audio_queue with
    | none => s1
    | some q => { s1 with dg_audio_queue := some (q ++ [some audio_data]) }

/-- One iteration of the Deepgram worker send loop
(`_connect_deepgram_flux` lines 337-353, identical in
`_connect_deepgram_nova` lines 515-527): take the next chunk off the queue;
a `None` sentinel ends the loop; a chunk taken while
`_pause_audio_sending` holds is discarded; otherwise it is forwarded to the
backend via `send_media`.  Returns `some chunk` when the chunk was
forwarded. -/
def worker_send_step (s : OrchState) : OrchState × Option (List Nat) :=
  if !s.session_active then (s, none)
  else
    match s.dg_audio_queue with
    | none => (s, none)
    | some [] => (s, none)
    | some (none :: rest) => ({ s with dg_audio_queue := some rest }, none)
    | some (some chunk :: rest) =>
        let s1 := { s with dg_audio_queue := some rest }
        if s1.pause_audio_sending then (s1, none)
        else (s1, some chunk)

/-- `ConversationOrchestrator._drain_audio_queue`: discard all queued,
not-yet-delivered chunks. -/
def drain_audio_queue (s : OrchState) : OrchState :=
  match s.dg_audio_queue with
  | none => s
  | some _ => { s with dg_audio_queue := some [] }

/-- The interleaved events acting on the audio path: a frame arriving from
the browser (`process_audio`), one worker send-loop iteration, the
synchronous turn-switch block of an end-of-turn callback, a queue drain, and
the renderer ready-to-listen signal. -/
inductive GateEvent
  | arrive (chunk : List Nat)
  | worker
  | turnSwitch
  | drain
  | ready
deriving DecidableEq, Repr

/-- One audio-path event step; returns the chunks forwarded to the
turn-detection backend by this step (at most one, by `worker_send_step`). -/
def gateStep (s : OrchState) : GateEvent → OrchState × List (List Nat)
  | .arrive chunk => (process_audio s chunk, [])
  | .worker =>
      let (s1, f) := worker_send_step s
      (s1, f.toList)
  | .turnSwitch => (turnSwitchSync s, [])
  | .drain => (drain_audio_queue s, [])
  | .ready => (handle_ready_to_listen s, [])

/-- Run a sequence of audio-path events, accumulating every chunk forwarded
to the backend in order. -/
def gateRun (s : OrchState) : List GateEvent → OrchState × List (List Nat)
  | [] => (s, [])
  | e :: es =>
      let (s1, out1) := gateStep s e
      let (s2, out2) := gateRun s1 es
      (s2, out1 ++ out2)

/-- Python `history[-n:]` (last `n` elements; `[-0:]` is the whole list). -/
def pyLastSlice (h : List ChatMsg) (n : Nat) : List ChatMsg :=
  if n = 0 then h else h.drop (h.length - n)

/-- `ConversationOrchestrator._add_to_history`: skip blank content, append,
and trim to the most recent `max_history_messages` entries. -/
def add_to_history (s : OrchState) (role content : String) : OrchState :=
  if pyStrip content = "" then s
  else
    let h := s.conversation_history ++ [{ role := role, content := content }]
    if s.max_history_messages < h.length then
      { s with conversation_history := pyLastSlice h s.max_history_messages }
    else
      { s with conversation_history := h }

/-- `ConversationOrchestrator.set_audio_config`: Python-truthy arguments
overwrite the stored values (`None` and `0` are falsy and leave them
unchanged); the stream is marked configured unconditionally. -/
def set_audio_config (s : OrchState)
    (sample_rate channel_count : Option Nat) : OrchState :=
  let s1 := match sample_rate with
    | some sr => if sr ≠ 0 then { s with audio_sample_rate := sr } else s
    | none => s
  let s2 := match channel_count with
    | some cc => if cc ≠ 0 then { s1 with audio_channels := cc } else s1
    | none => s1
  { s2 with audio_configured := true }

/-- `ConversationOrchestrator.stop_session`: deactivate the session, signal
the worker with a `None` sentinel, cancel and await the worker and listener
tasks, release the connection and queue, cancel and await every pending
background task and clear the set, then disconnect the AvatarTalk client.
Returns the awaited terminal statuses of all tasks touched. -/
def stop_session (s : OrchState) : OrchState × List TaskStatus :=
  let s1 := { s with session_active := false, is_listening := false }
  let s2 := { s1 with
    dg_audio_queue := s1.dg_audio_queue.map (fun q => q ++ [none]) }
  let workerDone := (s2.dg_worker_task.map cancelAwait).toList
  let s3 := { s2 with dg_worker_task := none }
  let listenDone := (s3.dg_listen_task.map cancelAwait).toList
  let s4 := { s3 with dg_listen_task := none }
  let s5 := { s4 with dg_connection := false, dg_audio_queue := none }
  let pendingDone := s5.pending_tasks.map cancelAwait
  let s6 := { s5 with pending_tasks := [] }
  let (at7, atDone) := AvatarTalkClient.disconnect s6.avatartalk
  ({ s6 with avatartalk := at7 },
   workerDone ++ listenDone ++ pendingDone ++ atDone)

/-- The `Expression` enum values (`config.py`). -/
def Expression.values : List String := ["happy", "neutral", "serious"]

/-- `Expression.default().value` (`config.py`). -/
def Expression.defaultValue : String := "neutral"

/-- Python `dict.get(key, default)` over an association-list model of the
localized-message dictionaries loaded from the data files. -/
def dictGet (d : List (String × String)) (key : String) (default : String) :
    String :=
  match d.find? (fun kv => kv.1 = key) with
  | some kv => kv.2
  | none => default

/-- `config.get_error_message`.  The message table is the contents of
`error_message.json` (a data file, passed as a parameter here). -/
def get_error_message (tbl : List (String × String)) (language_code : String) :
    String :=
  dictGet tbl language_code
    (dictGet tbl "en" "I\x27m sorry, I encountered an error. Please try again.")

/-- `config.get_timeout_message`.  The message table is the contents of
`timeout_message.json` (a data file, passed as a parameter here). -/
def get_timeout_message (tbl : List (String × String)) (language_code : String) :
    String :=
  dictGet tbl language_code
    (dictGet tbl "en"
      "I\x27m sorry, I\x27m taking too long to respond. Please try again.")

/-- The per-turn state threaded through the token loop of
`ConversationOrchestrator._stream_response`: the `SentenceAccumulator`, the
pending `extracted_expression`, and the `expression_extracted` flag. -/
structure PipeState where
  acc : AccState
  extracted_expression : Option String
  expression_extracted : Bool
deriving DecidableEq, Repr

/-- Initial pipeline state of a turn. -/
def PipeState.init : PipeState :=
  { acc := AccState.init, extracted_expression := none,
    expression_extracted := false }

/-- Yield the sentences produced by one `add_chunk` call as `_stream_response`
does: the current `extracted_expression` goes out with the first sentence and
is then reset to `None`. -/
def emitSentences (e : Option String) : List String → List (String × Option String)
  | [] => []
  | sent :: rest => (sent, e) :: rest.map (fun t => (t, none))

/-- One iteration of the `async for chunk in response` loop of
`_stream_response` for a content token; returns the `(sentence, expression)`
pairs yielded during the iteration. -/
def pipeline_step (st : PipeState) (content : String) :
    List (String × Option String) × PipeState :=
  if content = "" then ([], st)
  else
    let (content1, acc1, extracted1, exprFlag1, skip) :=
      if st.expression_extracted then
        (content, st.acc, st.extracted_expression, true, false)
      else
        let ((expr_result, remaining), acc') :=
          try_extract_expression st.acc content
        if pyTruthyStr expr_result then
          (remaining, acc', expr_result, true, false)
        else if buffer_has_expression_pending acc' then
          ("", acc', st.extracted_expression, false, true)
        else
          (content, acc', st.extracted_expression, false, false)
    if skip then
      ([], { acc := acc1, extracted_expression := extracted1,
             expression_extracted := exprFlag1 })
    else
      let (ss, acc2) := add_chunk acc1 content1
      (emitSentences extracted1 ss,
       { acc := acc2,
         extracted_expression := if ss = [] then extracted1 else none,
         expression_extracted := exprFlag1 })

/-- The token loop of `_stream_response` over a whole chunk sequence. -/
def pipeline_run (st : PipeState) :
    List String → List (String × Option String) × PipeState
  | [] => ([], st)
  | c :: cs =>
      let (out1, st1) := pipeline_step st c
      let (out2, st2) := pipeline_run st1 cs
      (out1 ++ out2, st2)

/-- The successful path of `_stream_response`: run the token loop, then
flush the accumulator and yield the remainder (with expression `None`) when
it strips to non-empty. -/
def stream_pipeline (chunks : List String) : List (String × Option String) :=
  let (out, st) := pipeline_run PipeState.init chunks
  let (final, _) := AccState.flush st.acc
  if pyStrip final ≠ "" then out ++ [(final, none)] else out

/-- Outcome of the guarded text-generation call in `_stream_response`:
`asyncio.wait_for(acompletion(...))` times out, raises some other exception,
or returns a token stream. -/
inductive LLMOutcome
  | timeout
  | failure
  | ok (chunks : List String)
deriving DecidableEq, Repr

/-- `ConversationOrchestrator._stream_response`: on success the sentence
pipeline output; on `asyncio.TimeoutError` a single localized timeout
message; on any other exception a single localized error message — both
fallbacks carry `Expression.default().value` and the generator never
re-raises to its consumer. -/
def stream_response (error_tbl timeout_tbl : List (String × String))
    (language : String) : LLMOutcome → List (String × Option String)
  | .timeout => [(get_timeout_message timeout_tbl language,
                  some Expression.defaultValue)]
  | .failure => [(get_error_message error_tbl language,
                  some Expression.defaultValue)]
  | .ok chunks => stream_pipeline chunks

/-- C2: a ready-to-listen event received while the orchestrator still owns
the turn (`avatar_turn_active`) is ignored and changes no state; only when
the turn is no longer active (stream completion already signalled) does it
re-enable listening and clear the ignore/pause flags and the transcript
buffer. -/
theorem ready_to_listen_only_after_completion (s : OrchState) :
    (s.avatar_turn_active = true → handle_ready_to_listen s = s)
    ∧ (s.session_active = true → s.avatar_turn_active = false →
        (handle_ready_to_listen s).is_listening = true
        ∧ (handle_ready_to_listen s).ignore_transcripts = false
        ∧ (handle_ready_to_listen s).pause_audio_sending = false
        ∧ (handle_ready_to_listen s).transcript_buffer = []) := by
  constructor
  · intro h
    unfold handle_ready_to_listen
    by_cases hs : s.session_active <;> simp [hs, h]
  · intro hs ha
    unfold handle_ready_to_listen
    by_cases hl : s.is_listening <;> simp [hs, ha, hl]

/-- Witness for C2 at concrete states. -/
theorem ready_to_listen_only_after_completion_witness :
    handle_ready_to_listen { initState with avatar_turn_active := true }
      = { initState with avatar_turn_active := true }
    ∧ (handle_ready_to_listen
        { initState with session_active := true }).is_listening = true :=
  ⟨(ready_to_listen_only_after_completion
      { initState with avatar_turn_active := true }).1 rfl,
   ((ready_to_listen_only_after_completion
      { initState with session_active := true }).2 rfl rfl).1⟩

/-- C7: appending to the conversation history preserves the 30-message cap;
an append at the cap evicts the oldest entry and keeps the most recent 30 in
order, while an append below the cap simply appends. -/
theorem history_never_exceeds_cap (s : OrchState) (role content : String)
    (hmax : s.max_history_messages = 30)
    (hlen : s.conversation_history.length ≤ 30) :
    (add_to_history s role content).conversation_history.length ≤ 30
    ∧ (pyStrip content ≠ "" → s.conversation_history.length = 30 →
        (add_to_history s role content).conversation_history
          = s.conversation_history.drop 1 ++ [{ role := role, content := content }])
    ∧ (pyStrip content ≠ "" → s.conversation_history.length < 30 →
        (add_to_history s role content).conversation_history
          = s.conversation_history ++ [{ role := role, content := content }]) := by
  unfold add_to_history
  by_cases hb : pyStrip content = ""
  · simp [hb, hlen]
  · simp only [hb, if_false, hmax]
    by_cases hcap : s.conversation_history.length = 30
    · have h31 : (s.conversation_history
          ++ [(⟨role, content⟩ : ChatMsg)]).length = 31 := by
        simp [hcap]
      rw [if_pos (by omega)]
      unfold pyLastSlice
      rw [if_neg (by omega), h31]
      have hdrop : (s.conversation_history
          ++ [(⟨role, content⟩ : ChatMsg)]).drop 1
          = s.conversation_history.drop 1 ++ [(⟨role, content⟩ : ChatMsg)] := by
        refine List.drop_append_of_le_length ?_
        omega
      constructor
      · have : (s.conversation_history.drop 1).length = 29 := by
          simp [hcap]
        simp only [show (31 : Nat) - 30 = 1 from rfl, hdrop]
        simp [this]
        omega
      · exact ⟨fun _ _ => by simp [show (31 : Nat) - 30 = 1 from rfl, hdrop],
               fun _ h => by omega⟩
    · have hlt : s.conversation_history.length < 30 := by omega
      rw [if_neg (by simp; omega)]
      refine ⟨by simp; omega, fun _ h => by omega, fun _ _ => rfl⟩

/-- Witness for C7 at a concrete full history. -/
theorem history_never_exceeds_cap_witness :
    (add_to_history
        { initState with
            conversation_history := List.replicate 30 ⟨"user", "x"⟩ }
        "assistant" "y").conversation_history.length ≤ 30
    ∧ (add_to_history
        { initState with
            conversation_history := List.replicate 30 ⟨"user", "x"⟩ }
        "assistant" "y").conversation_history
      = (List.replicate 30 (⟨"user", "x"⟩ : ChatMsg)).drop 1
          ++ [⟨"assistant", "y"⟩] := by
  have h := history_never_exceeds_cap
    { initState with conversation_history := List.replicate 30 ⟨"user", "x"⟩ }
    "assistant" "y" rfl (by simp)
  exact ⟨h.1, h.2.1 (by decide) (by simp)⟩

/-- C10: `set_audio_config` always marks the stream as configured; an absent
(`None`) or zero sample rate / channel count leaves the stored value
untouched, and the initial stored values are 16000 Hz and 1 channel. -/
theorem set_audio_config_always_configures (s : OrchState)
    (sample_rate channel_count : Option Nat) :
    (set_audio_config s sample_rate channel_count).audio_configured = true
    ∧ (sample_rate = none ∨ sample_rate = some 0 →
        (set_audio_config s sample_rate channel_count).audio_sample_rate
          = s.audio_sample_rate)
    ∧ (channel_count = none ∨ channel_count = some 0 →
        (set_audio_config s sample_rate channel_count).audio_channels
          = s.audio_channels)
    ∧ initState.audio_sample_rate = 16000
    ∧ initState.audio_channels = 1
    ∧ initState.audio_configured = false := by
  unfold set_audio_config
  refine ⟨?_, ?_, ?_, rfl, rfl, rfl⟩
  · cases sample_rate <;> cases channel_count <;>
      simp <;> split <;> simp <;> split <;> simp
  · rintro (h | h) <;> subst h <;> cases channel_count <;>
      simp <;> split <;> simp
  · rintro (h | h) <;> subst h <;> cases sample_rate <;>
      simp <;> split <;> simp

/-- Witness for C10: a configuration message with both fields missing opens
the gate and keeps the defaults. -/
theorem set_audio_config_always_configures_witness :
    (set_audio_config initState none none).audio_configured = true
    ∧ (set_audio_config initState none none).audio_sample_rate
        = initState.audio_sample_rate
    ∧ (set_audio_config initState none (some 0)).audio_channels
        = initState.audio_channels :=
  ⟨(set_audio_config_always_configures initState none none).1,
   (set_audio_config_always_configures initState none none).2.1 (Or.inl rfl),
   (set_audio_config_always_configures initState none (some 0)).2.2.1
     (Or.inr rfl)⟩

/-- C8: on a text-generation timeout or failure, `_stream_response` yields
exactly one localized fallback sentence — the timeout message on timeout and
the error message otherwise, both with the default expression — and
propagates no exception; the message is the table entry for the session
language when one exists. -/
theorem stream_response_fallback_on_error
    (error_tbl timeout_tbl : List (String × String)) (language : String) :
    stream_response error_tbl timeout_tbl language LLMOutcome.timeout
      = [(get_timeout_message timeout_tbl language, some Expression.defaultValue)]
    ∧ stream_response error_tbl timeout_tbl language LLMOutcome.failure
      = [(get_error_message error_tbl language, some Expression.defaultValue)]
    ∧ (stream_response error_tbl timeout_tbl language LLMOutcome.timeout).length = 1
    ∧ (stream_response error_tbl timeout_tbl language LLMOutcome.failure).length = 1
    ∧ (∀ msg : String,
        timeout_tbl.find? (fun kv => kv.1 = language) = some (language, msg) →
        get_timeout_message timeout_tbl language = msg)
    ∧ (∀ msg : String,
        error_tbl.find? (fun kv => kv.1 = language) = some (language, msg) →
        get_error_message error_tbl language = msg) := by
  refine ⟨rfl, rfl, rfl, rfl, ?_, ?_⟩
  · intro msg h
    unfold get_timeout_message dictGet
    rw [h]
  · intro msg h
    unfold get_error_message dictGet
    rw [h]

/-- Witness for C8 at a concrete localized table. -/
theorem stream_response_fallback_on_error_witness :
    stream_response [("es", "error-es")] [("es", "timeout-es")] "es"
        LLMOutcome.timeout = [("timeout-es", some "neutral")]
    ∧ get_timeout_message [("es", "timeout-es")] "es" = "timeout-es" := by
  have h := stream_response_fallback_on_error [("es", "error-es")]
    [("es", "timeout-es")] "es"
  refine ⟨?_, h.2.2.2.2.1 "timeout-es" (by decide)⟩
  rw [h.1, h.2.2.2.2.1 "timeout-es" (by decide)]
  rfl

/-- C6: while no expression has been resolved, a lookahead buffer that
exceeds 100 characters or contains a newline without matching the expression
pattern makes `try_extract_expression` return the entire accumulated buffer
as ordinary content with no expression, and the accumulator stops looking
for an expression prefix from then on. -/
theorem try_extract_expression_overflow (a : AccState) (content : String)
    (hjc : a.json_complete = false)
    (hnm : expressionMatch (a.json_prefix_buffer ++ content).toList = none)
    (hov : 100 < (a.json_prefix_buffer ++ content).length
           ∨ (a.json_prefix_buffer ++ content).toList.contains '\n') :
    try_extract_expression a content
      = ((none, a.json_prefix_buffer ++ content),
         { a with json_prefix_buffer := "", json_complete := true })
    ∧ ∀ later : String,
        try_extract_expression
          { a with json_prefix_buffer := "", json_complete := true } later
        = ((none, later),
           { a with json_prefix_buffer := "", json_complete := true }) := by
  constructor
  · have hnm' : expressionMatch (a.json_prefix_buffer.data ++ content.data)
        = none := by
      have : (a.json_prefix_buffer ++ content).toList
          = a.json_prefix_buffer.data ++ content.data := by
        simp [String.toList]
      rw [this] at hnm
      exact hnm
    unfold try_extract_expression
    simp only [hjc, Bool.false_eq_true, if_false]
    simp only [String.toList, String.data_append] at hnm ⊢
    rw [hnm']
    rw [if_pos ?_]
    · have hlen : (a.json_prefix_buffer ++ content).length
          = a.json_prefix_buffer.length + content.length := by
        simp [String.length_append]
      rcases hov with h | h
      · left; omega
      · right
        simpa [String.toList] using h
  · intro later
    unfold try_extract_expression
    simp

/-- Witness for C6: a newline-bearing prefix that is not an expression tag. -/
theorem try_extract_expression_overflow_witness :
    try_extract_expression AccState.init "abc\ndef"
      = ((none, "abc\ndef"),
         { AccState.init with json_prefix_buffer := "", json_complete := true })
    ∧ try_extract_expression
        { AccState.init with json_prefix_buffer := "", json_complete := true }
        "more"
      = ((none, "more"),
         { AccState.init with json_prefix_buffer := "",
                              json_complete := true }) := by
  have h := try_extract_expression_overflow AccState.init "abc\ndef" rfl
    (by decide) (by decide)
  exact ⟨by rw [show "abc\ndef" = AccState.init.json_prefix_buffer
            ++ "abc\ndef" from rfl]; exact h.1, h.2 "more"⟩

theorem cancelAwait_isTerminal (t : TaskStatus) :
    (cancelAwait t).isTerminal = true := by
  cases t <;> rfl

/-- Every status in the awaited-task list of `stop_session` is terminal. -/
theorem stop_session_tasks_terminal (s : OrchState) :
    ∀ t ∈ (stop_session s).2, t.isTerminal = true := by
  intro t ht
  unfold stop_session AvatarTalkClient.disconnect at ht
  by_cases hc : s.avatartalk.closing = true <;> simp [hc] at ht
  · rcases ht with ⟨u, _, he⟩ | ⟨u, _, he⟩ | ⟨u, _, he⟩ <;>
      (subst he; exact cancelAwait_isTerminal u)
  · rcases ht with ⟨u, _, he⟩ | ⟨u, _, he⟩ | ⟨u, _, he⟩ | ⟨u, _, he⟩ <;>
      (subst he; exact cancelAwait_isTerminal u)

/-- C9: one `stop_session` call brings every tracked background task to a
terminal state (each cancellation awaited), empties the pending-task set,
releases the audio queue and the Deepgram worker/listener references, and
disconnects the renderer client; a second call is a no-op that awaits
nothing and leaves the state unchanged.  The hypothesis is the connection
invariant maintained by `AvatarTalkClient` (`_closing = True` only ever
holds after `disconnect` has cleared the connection and socket). -/
theorem stop_session_idempotent_teardown (s : OrchState)
    (hat : s.avatartalk.closing = false
           ∨ (s.avatartalk.connected = false ∧ s.avatartalk.ws = false)) :
    (∀ t ∈ (stop_session s).2, t.isTerminal = true)
    ∧ (stop_session s).1.pending_tasks = []
    ∧ (stop_session s).1.dg_audio_queue = none
    ∧ (stop_session s).1.dg_worker_task = none
    ∧ (stop_session s).1.dg_listen_task = none
    ∧ (stop_session s).1.dg_connection = false
    ∧ (stop_session s).1.session_active = false
    ∧ (stop_session s).1.is_listening = false
    ∧ (stop_session s).1.avatartalk.connected = false
    ∧ (stop_session s).1.avatartalk.closing = true
    ∧ (stop_session s).1.avatartalk.ws = false
    ∧ stop_session (stop_session s).1 = ((stop_session s).1, []) := by
  refine ⟨stop_session_tasks_terminal s, ?_⟩
  unfold stop_session AvatarTalkClient.disconnect
  by_cases hc : s.avatartalk.closing = true
  · have hcw : s.avatartalk.connected = false ∧ s.avatartalk.ws = false := by
      rcases hat with h | h
      · rw [h] at hc; exact absurd hc (by simp)
      · exact h
    simp [hc, hcw.1, hcw.2]
  · simp [hc]

/-- Witness for C9: a live session with a running worker, listener, pending
tasks, a queued chunk and an open renderer connection is fully torn down,
and the second call changes nothing. -/
theorem stop_session_idempotent_teardown_witness :
    (∀ t ∈ (stop_session { initState with
        session_active := true, is_listening := true,
        dg_connection := true,
        dg_audio_queue := some [some [1, 2]],
        dg_worker_task := some TaskStatus.running,
        dg_listen_task := some TaskStatus.running,
        pending_tasks := [TaskStatus.running, TaskStatus.done],
        avatartalk := { connected := true, closing := false,
                        listen_task := some TaskStatus.running,
                        ws := true, session_id := some "sid" } }).2,
      t.isTerminal = true)
    ∧ (stop_session { initState with
        session_active := true, is_listening := true,
        dg_connection := true,
        dg_audio_queue := some [some [1, 2]],
        dg_worker_task := some TaskStatus.running,
        dg_listen_task := some TaskStatus.running,
        pending_tasks := [TaskStatus.running, TaskStatus.done],
        avatartalk := { connected := true, closing := false,
                        listen_task := some TaskStatus.running,
                        ws := true, session_id := some "sid" } }).1.pending_tasks = []
    ∧ stop_session (stop_session { initState with
        session_active := true, is_listening := true,
        dg_connection := true,
        dg_audio_queue := some [some [1, 2]],
        dg_worker_task := some TaskStatus.running,
        dg_listen_task := some TaskStatus.running,
        pending_tasks := [TaskStatus.running, TaskStatus.done],
        avatartalk := { connected := true, closing := false,
                        listen_task := some TaskStatus.running,
                        ws := true, session_id := some "sid" } }).1
      = ((stop_session { initState with
        session_active := true, is_listening := true,
        dg_connection := true,
        dg_audio_queue := some [some [1, 2]],
        dg_worker_task := some TaskStatus.running,
        dg_listen_task := some TaskStatus.running,
        pending_tasks := [TaskStatus.running, TaskStatus.done],
        avatartalk := { connected := true, closing := false,
                        listen_task := some TaskStatus.running,
                        ws := true, session_id := some "sid" } }).1, []) := by
  have h := stop_session_idempotent_teardown { initState with
        session_active := true, is_listening := true,
        dg_connection := true,
        dg_audio_queue := some [some [1, 2]],
        dg_worker_task := some TaskStatus.running,
        dg_listen_task := some TaskStatus.running,
        pending_tasks := [TaskStatus.running, TaskStatus.done],
        avatartalk := { connected := true, closing := false,
                        listen_task := some TaskStatus.running,
                        ws := true, session_id := some "sid" } } (Or.inl rfl)
  exact ⟨h.1, h.2.1, h.2.2.2.2.2.2.2.2.2.2.2⟩

theorem turnSwitchSync_flags (s : OrchState) :
    (turnSwitchSync s).ignore_transcripts = true
    ∧ (turnSwitchSync s).pause_audio_sending = true
    ∧ (turnSwitchSync s).transcript_buffer = [] :=
  ⟨rfl, rfl, rfl⟩

/-- While `_ignore_transcripts` holds, a Flux `TurnInfo` event is dropped
without touching state or scheduling anything. -/
theorem flux_turnInfo_ignored (s : OrchState)
    (h : s.ignore_transcripts = true) (event transcript : String) :
    flux_on_message s (FluxMessage.turnInfo event transcript) = (s, []) := by
  unfold flux_on_message
  simp [h]

/-- While `_ignore_transcripts` holds, Nova `Results` and `UtteranceEnd`
events are dropped without touching state or scheduling anything. -/
theorem nova_detection_ignored (s : OrchState)
    (h : s.ignore_transcripts = true) :
    (∀ ff ca f sf, nova_on_message s (NovaMessage.results ff ca f sf) = (s, []))
    ∧ nova_on_message s NovaMessage.utteranceEnd = (s, []) := by
  constructor
  · intro ff ca f sf
    unfold nova_on_message
    by_cases hff : ff <;> simp [h, hff]
  · unfold nova_on_message
    simp [h]

/-- C1 (amended): a detection event whose final transcript is non-empty
after stripping whitespace schedules exactly one response task; the
ignore-transcripts and pause-audio flags and the buffer clear are applied in
the same synchronous handler step that schedules the task, so the returned
state already carries them before the task runs; hence any further detection
event delivered to that state is ignored and schedules nothing.  Stated for
all three detection paths: Flux `EndOfTurn`, Nova `speech_final`, and Nova
`UtteranceEnd`. -/
theorem turn_complete_schedules_exactly_one (s : OrchState) (tr : String)
    (hig : s.ignore_transcripts = false) :
    (fluxFinalTranscript s tr ≠ "" →
      (flux_on_message s (FluxMessage.turnInfo "EndOfTurn" tr)).2
          = [fluxFinalTranscript s tr]
      ∧ (flux_on_message s (FluxMessage.turnInfo "EndOfTurn" tr)).1.ignore_transcripts = true
      ∧ (flux_on_message s (FluxMessage.turnInfo "EndOfTurn" tr)).1.pause_audio_sending = true
      ∧ (flux_on_message s (FluxMessage.turnInfo "EndOfTurn" tr)).1.transcript_buffer = []
      ∧ (∀ ev2 tr2,
          flux_on_message (flux_on_message s (FluxMessage.turnInfo "EndOfTurn" tr)).1
            (FluxMessage.turnInfo ev2 tr2)
          = ((flux_on_message s (FluxMessage.turnInfo "EndOfTurn" tr)).1, [])))
    ∧ (tr ≠ "" →
       pyStrip (String.intercalate " " (s.transcript_buffer ++ [tr])) ≠ "" →
       ∀ isf,
        (nova_on_message s (NovaMessage.results false (some [tr]) isf true)).2
          = [pyStrip (String.intercalate " " (s.transcript_buffer ++ [tr]))]
        ∧ (nova_on_message s (NovaMessage.results false (some [tr]) isf true)).1.ignore_transcripts = true
        ∧ (nova_on_message s (NovaMessage.results false (some [tr]) isf true)).1.pause_audio_sending = true
        ∧ (nova_on_message s (NovaMessage.results false (some [tr]) isf true)).1.transcript_buffer = []
        ∧ (∀ ff2 ca2 f2 sf2,
            nova_on_message (nova_on_message s (NovaMessage.results false (some [tr]) isf true)).1
              (NovaMessage.results ff2 ca2 f2 sf2)
            = ((nova_on_message s (NovaMessage.results false (some [tr]) isf true)).1, []))
        ∧ nova_on_message (nova_on_message s (NovaMessage.results false (some [tr]) isf true)).1
            NovaMessage.utteranceEnd
          = ((nova_on_message s (NovaMessage.results false (some [tr]) isf true)).1, []))
    ∧ (s.transcript_buffer ≠ [] →
       pyStrip (String.intercalate " " s.transcript_buffer) ≠ "" →
        (nova_on_message s NovaMessage.utteranceEnd).2
          = [pyStrip (String.intercalate " " s.transcript_buffer)]
        ∧ (nova_on_message s NovaMessage.utteranceEnd).1.ignore_transcripts = true
        ∧ (nova_on_message s NovaMessage.utteranceEnd).1.pause_audio_sending = true
        ∧ (nova_on_message s NovaMessage.utteranceEnd).1.transcript_buffer = []
        ∧ (∀ ev2 tr2,
            flux_on_message (nova_on_message s NovaMessage.utteranceEnd).1
              (FluxMessage.turnInfo ev2 tr2)
            = ((nova_on_message s NovaMessage.utteranceEnd).1, []))) := by
  refine ⟨?_, ?_, ?_⟩
  · intro hft
    have hmain : flux_on_message s (FluxMessage.turnInfo "EndOfTurn" tr)
        = (turnSwitchSync (if tr ≠ "" then
            { s with transcript_buffer := s.transcript_buffer ++ [tr] } else s),
           [fluxFinalTranscript s tr]) := by
      unfold flux_on_message
      simp only [hig, Bool.false_eq_true, if_false, if_true, hft]
      split <;> simp [hft]
    rw [hmain]
    refine ⟨rfl, rfl, rfl, rfl, ?_⟩
    intro ev2 tr2
    exact flux_turnInfo_ignored _ rfl ev2 tr2
  · intro htr hfin isf
    have hmain : nova_on_message s (NovaMessage.results false (some [tr]) isf true)
        = (turnSwitchSync { s with transcript_buffer := s.transcript_buffer ++ [tr] },
           [pyStrip (String.intercalate " " (s.transcript_buffer ++ [tr]))]) := by
      unfold nova_on_message
      simp [hig, htr, hfin]
    rw [hmain]
    refine ⟨rfl, rfl, rfl, rfl, ?_, ?_⟩
    · intro ff2 ca2 f2 sf2
      exact (nova_detection_ignored _ rfl).1 ff2 ca2 f2 sf2
    · exact (nova_detection_ignored _ rfl).2
  · intro hbuf hfin
    have hmain : nova_on_message s NovaMessage.utteranceEnd
        = (turnSwitchSync s,
           [pyStrip (String.intercalate " " s.transcript_buffer)]) := by
      unfold nova_on_message
      simp [hig, hbuf, hfin]
    rw [hmain]
    refine ⟨rfl, rfl, rfl, rfl, ?_⟩
    intro ev2 tr2
    exact flux_turnInfo_ignored _ rfl ev2 tr2

/-- Counterexample to C1 as stated: the transcript `" "` is a non-empty
string, yet a Flux `EndOfTurn` carrying it (from the initial, listening
state) schedules no response task and sets none of the turn-ending flags,
because the code tests the transcript only after stripping whitespace. -/
theorem turn_complete_whitespace_counterexample :
    (" " : String) ≠ ""
    ∧ (flux_on_message initState (FluxMessage.turnInfo "EndOfTurn" " ")).2 = []
    ∧ (flux_on_message initState
        (FluxMessage.turnInfo "EndOfTurn" " ")).1.ignore_transcripts = false
    ∧ (flux_on_message initState
        (FluxMessage.turnInfo "EndOfTurn" " ")).1.pause_audio_sending = false
    ∧ (nova_on_message initState
        (NovaMessage.results false (some [" "]) false true)).2 = [] := by
  refine ⟨by decide, by decide, by decide, by decide, by decide⟩

/-- Witness for the amended C1 at concrete inputs. -/
theorem turn_complete_schedules_exactly_one_witness :
    (flux_on_message { initState with transcript_buffer := ["hi"] }
        (FluxMessage.turnInfo "EndOfTurn" "hello")).2 = ["hello"]
    ∧ (nova_on_message { initState with transcript_buffer := ["hi"] }
        (NovaMessage.results false (some ["hello"]) false true)).2
      = ["hi hello"]
    ∧ (nova_on_message { initState with transcript_buffer := ["hi"] }
        NovaMessage.utteranceEnd).2 = ["hi"] := by
  have h := turn_complete_schedules_exactly_one
    { initState with transcript_buffer := ["hi"] } "hello" rfl
  refine ⟨(h.1 (by decide)).1, ?_, (h.2.2 (by decide) (by decide)).1⟩
  have h2 := (h.2.1 (by decide) (by decide) false).1
  rw [h2]
  decide

theorem gateRun_append (s : OrchState) (es1 es2 : List GateEvent) :
    gateRun s (es1 ++ es2)
      = ((gateRun (gateRun s es1).1 es2).1,
         (gateRun s es1).2 ++ (gateRun (gateRun s es1).1 es2).2) := by
  induction es1 generalizing s with
  | nil => simp [gateRun]
  | cons e es ih =>
    simp only [List.cons_append, gateRun, List.append_eq]
    rw [ih]
    simp [List.append_assoc]

/-- `process_audio` while the session is listening, configured, and the
worker is live: the frame is appended to the audio queue and nothing else
changes. -/
theorem process_audio_enqueues (s : OrchState) (c : List Nat)
    (hact : s.session_active = true) (hl : s.is_listening = true)
    (hcfg : s.audio_configured = true)
    (hw : s.dg_worker_task = some TaskStatus.running)
    (q : List (Option (List Nat))) (hq : s.dg_audio_queue = some q) :
    process_audio s c = { s with dg_audio_queue := some (q ++ [some c]) } := by
  unfold process_audio ensure_deepgram_connection
  simp [hact, hl, hcfg, hw, hq]

/-- Every frame arriving while listening (and configured, with a live
worker) is enqueued, in arrival order. -/
theorem gateRun_arrivals_enqueue (fs : List (List Nat)) :
    ∀ (s : OrchState) (q : List (Option (List Nat))),
    s.session_active = true → s.is_listening = true →
    s.audio_configured = true →
    s.dg_worker_task = some TaskStatus.running →
    s.dg_audio_queue = some q →
    gateRun s (fs.map GateEvent.arrive)
      = ({ s with dg_audio_queue := some (q ++ fs.map Option.some) }, []) := by
  induction fs with
  | nil =>
    intro s q hact hl hcfg hw hq
    simp only [List.map_nil, gateRun, List.append_nil]
    rw [← hq]
  | cons f fs ih =>
    intro s q hact hl hcfg hw hq
    simp only [List.map_cons, gateRun, gateStep]
    rw [process_audio_enqueues s f hact hl hcfg hw q hq]
    rw [ih { s with dg_audio_queue := some (q ++ [some f]) }
      (q ++ [some f]) hact hl hcfg hw rfl]
    simp [List.append_assoc]

/-- With the gate open (not paused) and the session active, running one
worker iteration per queued frame forwards exactly the queued frames in
FIFO order. -/
theorem gateRun_workers_forward (fs : List (List Nat)) :
    ∀ (s : OrchState),
    s.session_active = true → s.pause_audio_sending = false →
    s.dg_audio_queue = some (fs.map Option.some) →
    gateRun s (List.replicate fs.length GateEvent.worker)
      = ({ s with dg_audio_queue := some [] }, fs) := by
  induction fs with
  | nil =>
    intro s hact hp hq
    simp only [List.length_nil, List.replicate, gateRun]
    rw [show (some ([] : List (Option (List Nat)))) = s.dg_audio_queue from
      by rw [hq]; rfl]
  | cons f fs ih =>
    intro s hact hp hq
    simp only [List.length_cons, List.replicate, gateRun, gateStep]
    have hstep : worker_send_step s
        = ({ s with dg_audio_queue := some (fs.map Option.some) }, some f) := by
      unfold worker_send_step
      simp [hact, hq, hp]
    rw [hstep]
    rw [ih { s with dg_audio_queue := some (fs.map Option.some) } hact hp rfl]
    rfl

theorem process_audio_pause (s : OrchState) (c : List Nat) :
    (process_audio s c).pause_audio_sending = s.pause_audio_sending := by
  unfold process_audio ensure_deepgram_connection
  split
  · rfl
  · split
    · rfl
    · split <;> (dsimp only; try (split <;> rfl))

theorem worker_send_step_pause (s : OrchState) :
    (worker_send_step s).1.pause_audio_sending = s.pause_audio_sending := by
  unfold worker_send_step
  split
  · rfl
  · split
    · rfl
    · rfl
    · rfl
    · dsimp only; try (split <;> rfl)

theorem worker_send_step_paused_none (s : OrchState)
    (hp : s.pause_audio_sending = true) : (worker_send_step s).2 = none := by
  unfold worker_send_step
  split
  · rfl
  · split
    · rfl
    · rfl
    · rfl
    · rename_i s' q c rest heq
      simp [hp]

theorem drain_audio_queue_pause (s : OrchState) :
    (drain_audio_queue s).pause_audio_sending = s.pause_audio_sending := by
  unfold drain_audio_queue
  split <;> rfl

/-- While `_pause_audio_sending` holds, no event other than a
ready-to-listen can forward a frame or clear the pause flag: arrivals only
enqueue, worker iterations discard, turn switches and drains keep the flag. -/
theorem gateRun_paused_no_forward (es : List GateEvent) :
    ∀ (s : OrchState), s.pause_audio_sending = true →
    (∀ e ∈ es, e ≠ GateEvent.ready) →
    (gateRun s es).2 = []
    ∧ (gateRun s es).1.pause_audio_sending = true := by
  induction es with
  | nil => intro s hp _; exact ⟨rfl, hp⟩
  | cons e es ih =>
    intro s hp hnr
    have hstep : (gateStep s e).2 = []
        ∧ (gateStep s e).1.pause_audio_sending = true := by
      cases e with
      | arrive c => exact ⟨rfl, by rw [show (gateStep s (GateEvent.arrive c)).1
          = process_audio s c from rfl, process_audio_pause]; exact hp⟩
      | worker =>
        constructor
        · show (worker_send_step s).2.toList = []
          rw [worker_send_step_paused_none s hp]
          rfl
        · show (worker_send_step s).1.pause_audio_sending = true
          rw [worker_send_step_pause]; exact hp
      | turnSwitch => exact ⟨rfl, rfl⟩
      | drain => exact ⟨rfl, by rw [show (gateStep s GateEvent.drain).1
          = drain_audio_queue s from rfl, drain_audio_queue_pause]; exact hp⟩
      | ready => exact absurd rfl (hnr GateEvent.ready (by simp))
    have hrest := ih (gateStep s e).1 hstep.2
      (fun e2 he2 => hnr e2 (List.mem_cons_of_mem e he2))
    simp only [gateRun]
    exact ⟨by simp [hstep.1, hrest.1], hrest.2⟩

/-- C3: audio frames reach the turn-detection backend only while the session
is listening with the gate open.  (a) Frames delivered by `process_audio`
while the session is listening, configured, unpaused and served by a live
worker, followed by one worker iteration per frame, are forwarded to the
backend exactly in arrival order.  (b) The synchronous turn-switch block
sets the pause flag.  (c) From the moment the pause flag is set, any event
sequence without the ready-to-listen resume forwards no frame at all —
neither newly arriving frames nor frames already queued. -/
theorem audio_forwarded_only_while_listening
    (fs : List (List Nat)) (s : OrchState) (es : List GateEvent)
    (hact : s.session_active = true) (hl : s.is_listening = true)
    (hcfg : s.audio_configured = true)
    (hw : s.dg_worker_task = some TaskStatus.running)
    (hq : s.dg_audio_queue = some [])
    (hp : s.pause_audio_sending = false)
    (hnr : ∀ e ∈ es, e ≠ GateEvent.ready) :
    (gateRun s (fs.map GateEvent.arrive
        ++ List.replicate fs.length GateEvent.worker)).2 = fs
    ∧ (turnSwitchSync s).pause_audio_sending = true
    ∧ (gateRun (turnSwitchSync s) es).2 = [] := by
  refine ⟨?_, rfl, ?_⟩
  · rw [gateRun_append]
    rw [gateRun_arrivals_enqueue fs s [] hact hl hcfg hw hq]
    have h2 := gateRun_workers_forward fs
      { s with dg_audio_queue := some ([] ++ fs.map Option.some) }
      hact hp (by simp)
    rw [h2]
    simp
  · exact (gateRun_paused_no_forward es (turnSwitchSync s) rfl hnr).1

/-- Witness for C3: two frames arrive while listening and are forwarded in
order; after a turn switch, an arriving frame and worker iterations forward
nothing. -/
theorem audio_forwarded_only_while_listening_witness :
    (gateRun { initState with
        session_active := true, is_listening := true, audio_configured := true,
        dg_worker_task := some TaskStatus.running, dg_audio_queue := some [] }
      ([[1], [2]].map GateEvent.arrive
        ++ List.replicate 2 GateEvent.worker)).2 = [[1], [2]]
    ∧ (gateRun (turnSwitchSync { initState with
        session_active := true, is_listening := true, audio_configured := true,
        dg_worker_task := some TaskStatus.running,
        dg_audio_queue := some [] })
      [GateEvent.arrive [3], GateEvent.worker, GateEvent.worker]).2 = [] := by
  constructor
  · exact (audio_forwarded_only_while_listening [[1], [2]]
      { initState with
        session_active := true, is_listening := true, audio_configured := true,
        dg_worker_task := some TaskStatus.running, dg_audio_queue := some [] }
      [] rfl rfl rfl rfl rfl rfl (by simp)).1
  · exact (audio_forwarded_only_while_listening []
      { initState with
        session_active := true, is_listening := true, audio_configured := true,
        dg_worker_task := some TaskStatus.running,
        dg_audio_queue := some [] }
      [GateEvent.arrive [3], GateEvent.worker, GateEvent.worker]
      rfl rfl rfl rfl rfl rfl (by decide)).2.2

theorem expressionMatch_some_ne {cs : List Char} {e : String} {r : List Char}
    (h : expressionMatch cs = some (e, r)) : e ≠ "" := by
  unfold expressionMatch at h
  split at h
  · split at h
    · try dsimp only at h
      split at h
      · split at h
        · split at h
          · try dsimp only at h
            split at h
            · simp at h
            · split at h
              · split at h
                · split at h
                  · simp only [Option.some.injEq, Prod.mk.injEq] at h
                    intro he
                    rw [he] at h
                    have hd := congrArg String.data h.1
                    simp_all
                  · simp at h
                · simp at h
              · simp at h
          · simp at h
        · simp at h
      · simp at h
    · simp at h
  · simp at h

theorem try_extract_complete_id (a : AccState) (c : String)
    (h : a.json_complete = true) :
    try_extract_expression a c = ((none, c), a) := by
  unfold try_extract_expression
  simp [h]

theorem try_extract_eq (a : AccState) (c : String)
    (hcomp : a.json_complete = false) :
    try_extract_expression a c =
      match expressionMatch (a.json_prefix_buffer ++ c).toList with
      | some (expr, remaining) =>
          ((some expr, String.mk remaining),
           { a with json_prefix_buffer := "", json_complete := true })
      | none =>
          if 100 < (a.json_prefix_buffer ++ c).length
              ∨ (a.json_prefix_buffer ++ c).toList.contains '\n' then
            ((none, a.json_prefix_buffer ++ c),
             { a with json_prefix_buffer := "", json_complete := true })
          else
            ((none, ""),
             { a with json_prefix_buffer := a.json_prefix_buffer ++ c }) := by
  unfold try_extract_expression
  simp only [hcomp, Bool.false_eq_true, if_false]

theorem try_extract_truthy_complete (a : AccState) (c : String)
    (h : pyTruthyStr (try_extract_expression a c).1.1 = true) :
    (try_extract_expression a c).2.json_complete = true := by
  by_cases hcomp : a.json_complete = true
  · rw [try_extract_complete_id a c hcomp] at h
    simp [pyTruthyStr] at h
  · have hc0 : a.json_complete = false := by
      cases hcb : a.json_complete
      · rfl
      · exact absurd hcb hcomp
    rw [try_extract_eq a c hc0] at h ⊢
    cases heq : expressionMatch (a.json_prefix_buffer ++ c).toList with
    | some er =>
      obtain ⟨e, r⟩ := er
      rfl
    | none =>
      exfalso
      simp only [heq] at h
      split at h <;> simp [pyTruthyStr] at h

theorem try_extract_fallthrough_complete (a : AccState) (c : String)
    (hc : c ≠ "")
    (ht : pyTruthyStr (try_extract_expression a c).1.1 = false)
    (hp : buffer_has_expression_pending (try_extract_expression a c).2 = false) :
    (try_extract_expression a c).2.json_complete = true := by
  by_cases hcomp : a.json_complete = true
  · rw [try_extract_complete_id a c hcomp]
    exact hcomp
  · have hc0 : a.json_complete = false := by
      cases hcb : a.json_complete
      · rfl
      · exact absurd hcb hcomp
    rw [try_extract_eq a c hc0] at ht hp ⊢
    cases heq : expressionMatch (a.json_prefix_buffer ++ c).toList with
    | some er =>
      obtain ⟨e, r⟩ := er
      exfalso
      simp only [heq] at ht
      simp [pyTruthyStr, expressionMatch_some_ne heq] at ht
    | none =>
      simp only [heq] at hp ⊢
      by_cases hov : 100 < (a.json_prefix_buffer ++ c).length
          ∨ (a.json_prefix_buffer ++ c).toList.contains '\n' = true
      · rw [if_pos hov]
      · rw [if_neg hov] at hp
        exfalso
        unfold buffer_has_expression_pending at hp
        simp at hp
        have hbuf : a.json_prefix_buffer ++ c = "" := by
          by_contra hbn
          exact absurd (hp hbn) (by simp [hc0])
        have hlen : (a.json_prefix_buffer ++ c).length
            = a.json_prefix_buffer.length + c.length := String.length_append _ _
        have hcne : c.length ≠ 0 := by
          intro h0
          apply hc
          cases c with
          | mk data =>
            cases data with
            | nil => rfl
            | cons x xs => simp [String.length] at h0
        have hne0 : (a.json_prefix_buffer ++ c).length ≠ 0 := by omega
        exact hne0 (by rw [hbuf]; rfl)

theorem add_chunk_json_fields (a : AccState) (c : String) :
    (add_chunk a c).2.json_complete = a.json_complete
    ∧ (add_chunk a c).2.json_prefix_buffer = a.json_prefix_buffer := by
  unfold add_chunk
  split
  · exact ⟨rfl, rfl⟩
  · exact ⟨rfl, rfl⟩

theorem emitSentences_all_none (ss : List String) :
    ∀ p ∈ emitSentences none ss, p.2 = none := by
  cases ss with
  | nil => intro p hp; simp [emitSentences] at hp
  | cons s rest =>
    intro p hp
    simp [emitSentences] at hp
    rcases hp with h | ⟨t, _, h⟩
    · rw [h]
    · rw [← h]

theorem emitSentences_tail_none (e : Option String) (ss : List String) :
    ∀ p ∈ (emitSentences e ss).tail, p.2 = none := by
  cases ss with
  | nil => intro p hp; simp [emitSentences] at hp
  | cons s rest =>
    intro p hp
    simp [emitSentences] at hp
    obtain ⟨t, _, h⟩ := hp
    rw [← h]

theorem tail_append_prop {α : Type} (f : α → Prop) (out o1 : List α)
    (h1 : ∀ p ∈ out.tail, f p)
    (h2 : out = [] → ∀ p ∈ o1.tail, f p)
    (h3 : out ≠ [] → ∀ p ∈ o1, f p) :
    ∀ p ∈ (out ++ o1).tail, f p := by
  cases out with
  | nil => simpa using h2 rfl
  | cons a t =>
    intro p hp
    simp only [List.cons_append, List.tail_cons, List.mem_append] at hp
    rcases hp with h | h
    · exact h1 p h
    · exact h3 (by simp) p h

theorem pipeline_step_empty (st : PipeState) : pipeline_step st "" = ([], st) := by
  unfold pipeline_step
  simp

theorem pipeline_step_flagged (st : PipeState) (c : String) (hc : c ≠ "")
    (hf : st.expression_extracted = true) :
    pipeline_step st c =
      (emitSentences st.extracted_expression (add_chunk st.acc c).1,
       { acc := (add_chunk st.acc c).2,
         extracted_expression :=
           if (add_chunk st.acc c).1 = [] then st.extracted_expression else none,
         expression_extracted := true }) := by
  unfold pipeline_step
  simp only [hc, if_false, hf, if_true]
  rfl

theorem pipeline_step_truthy (st : PipeState) (c : String) (hc : c ≠ "")
    (hf : st.expression_extracted = false)
    (ht : pyTruthyStr (try_extract_expression st.acc c).1.1 = true) :
    pipeline_step st c =
      (emitSentences (try_extract_expression st.acc c).1.1
        (add_chunk (try_extract_expression st.acc c).2
          (try_extract_expression st.acc c).1.2).1,
       { acc := (add_chunk (try_extract_expression st.acc c).2
           (try_extract_expression st.acc c).1.2).2,
         extracted_expression :=
           if (add_chunk (try_extract_expression st.acc c).2
               (try_extract_expression st.acc c).1.2).1 = []
           then (try_extract_expression st.acc c).1.1 else none,
         expression_extracted := true }) := by
  rcases hres : try_extract_expression st.acc c with ⟨⟨r, rem⟩, a2⟩
  rw [hres] at ht
  unfold pipeline_step
  rw [hres]
  simp only [hc, if_false, hf, Bool.false_eq_true, ht, if_true]

theorem pipeline_step_skip (st : PipeState) (c : String) (hc : c ≠ "")
    (hf : st.expression_extracted = false)
    (ht : pyTruthyStr (try_extract_expression st.acc c).1.1 = false)
    (hpend : buffer_has_expression_pending
        (try_extract_expression st.acc c).2 = true) :
    pipeline_step st c =
      ([], { acc := (try_extract_expression st.acc c).2,
             extracted_expression := st.extracted_expression,
             expression_extracted := false }) := by
  rcases hres : try_extract_expression st.acc c with ⟨⟨r, rem⟩, a2⟩
  rw [hres] at ht hpend
  unfold pipeline_step
  rw [hres]
  simp only [hc, if_false, hf, Bool.false_eq_true, ht, hpend, if_true]

theorem pipeline_step_fall (st : PipeState) (c : String) (hc : c ≠ "")
    (hf : st.expression_extracted = false)
    (ht : pyTruthyStr (try_extract_expression st.acc c).1.1 = false)
    (hpend : buffer_has_expression_pending
        (try_extract_expression st.acc c).2 = false) :
    pipeline_step st c =
      (emitSentences st.extracted_expression
        (add_chunk (try_extract_expression st.acc c).2 c).1,
       { acc := (add_chunk (try_extract_expression st.acc c).2 c).2,
         extracted_expression :=
           if (add_chunk (try_extract_expression st.acc c).2 c).1 = []
           then st.extracted_expression else none,
         expression_extracted := false }) := by
  rcases hres : try_extract_expression st.acc c with ⟨⟨r, rem⟩, a2⟩
  rw [hres] at ht hpend
  unfold pipeline_step
  rw [hres]
  simp only [hc, if_false, hf, Bool.false_eq_true, ht, hpend, if_true]

/-- Invariant of the `_stream_response` token loop: everything after the
first yielded pair carries no expression; once something has been yielded
the pending expression is spent; and while the expression flag is down, a
yield can only have happened after the JSON lookahead was closed. -/
def PipeInv (out : List (String × Option String)) (st : PipeState) : Prop :=
  (∀ p ∈ out.tail, p.2 = none)
  ∧ (out ≠ [] → st.extracted_expression = none)
  ∧ (out ≠ [] → st.expression_extracted = false → st.acc.json_complete = true)
  ∧ (st.expression_extracted = false → st.extracted_expression = none)

theorem emitSentences_eq_nil (e : Option String) (ss : List String) :
    emitSentences e ss = [] ↔ ss = [] := by
  cases ss <;> simp [emitSentences]

theorem pipeline_step_inv (out : List (String × Option String))
    (st : PipeState) (c : String) (h : PipeInv out st) :
    PipeInv (out ++ (pipeline_step st c).1) (pipeline_step st c).2 := by
  obtain ⟨h1, h2, h3, h4⟩ := h
  by_cases hc : c = ""
  · subst hc
    rw [pipeline_step_empty]
    simpa using ⟨h1, h2, h3, h4⟩
  by_cases hf : st.expression_extracted = true
  · rw [pipeline_step_flagged st c hc hf]
    refine ⟨?_, ?_, ?_, ?_⟩
    · refine tail_append_prop _ out _ h1 ?_ ?_
      · intro _; exact emitSentences_tail_none _ _
      · intro hne
        have he : st.extracted_expression = none := h2 hne
        rw [he]
        exact emitSentences_all_none _
    · intro hne
      by_cases hss : (add_chunk st.acc c).1 = []
      · simp only [hss, if_true]
        apply h2
        intro ho
        rw [ho] at hne
        simp [(emitSentences_eq_nil _ _).2 hss] at hne
      · simp [hss]
    · intro _ hff
      simp at hff
    · intro hff
      simp at hff
  have hf0 : st.expression_extracted = false := by
    cases hfb : st.expression_extracted
    · rfl
    · exact absurd hfb hf
  by_cases ht : pyTruthyStr (try_extract_expression st.acc c).1.1 = true
  · rw [pipeline_step_truthy st c hc hf0 ht]
    have hout : out = [] := by
      by_contra hne
      have hcomp := h3 hne hf0
      rw [try_extract_complete_id st.acc c hcomp] at ht
      simp [pyTruthyStr] at ht
    subst hout
    refine ⟨?_, ?_, ?_, ?_⟩
    · simp only [List.nil_append]
      exact emitSentences_tail_none _ _
    · intro hne
      simp only [List.nil_append] at hne
      by_cases hss : (add_chunk (try_extract_expression st.acc c).2
          (try_extract_expression st.acc c).1.2).1 = []
      · rw [(emitSentences_eq_nil _ _).2 hss] at hne
        exact absurd rfl hne
      · simp [hss]
    · intro _ hff
      simp at hff
    · intro hff
      simp at hff
  have ht0 : pyTruthyStr (try_extract_expression st.acc c).1.1 = false := by
    cases htb : pyTruthyStr (try_extract_expression st.acc c).1.1
    · rfl
    · exact absurd htb ht
  by_cases hpend : buffer_has_expression_pending
      (try_extract_expression st.acc c).2 = true
  · rw [pipeline_step_skip st c hc hf0 ht0 hpend]
    refine ⟨by simpa using h1, ?_, ?_, ?_⟩
    · intro hne
      simp only [List.append_nil] at hne
      exact h2 hne
    · intro hne _
      simp only [List.append_nil] at hne
      have hcomp := h3 hne hf0
      rw [try_extract_complete_id st.acc c hcomp]
      exact hcomp
    · intro _
      exact h4 hf0
  have hpend0 : buffer_has_expression_pending
      (try_extract_expression st.acc c).2 = false := by
    cases hpb : buffer_has_expression_pending (try_extract_expression st.acc c).2
    · rfl
    · exact absurd hpb hpend
  rw [pipeline_step_fall st c hc hf0 ht0 hpend0]
  have hext : st.extracted_expression = none := h4 hf0
  refine ⟨?_, ?_, ?_, ?_⟩
  · refine tail_append_prop _ out _ h1 ?_ ?_
    · intro _
      exact emitSentences_tail_none _ _
    · intro _
      rw [hext]
      exact emitSentences_all_none _
  · intro _
    by_cases hss : (add_chunk (try_extract_expression st.acc c).2 c).1 = []
    · simp only [hss, if_true]
      exact hext
    · simp [hss]
  · intro _ _
    have := try_extract_fallthrough_complete st.acc c hc ht0 hpend0
    rw [(add_chunk_json_fields _ _).1]
    exact this
  · intro _
    by_cases hss : (add_chunk (try_extract_expression st.acc c).2 c).1 = []
    · simp only [hss, if_true]
      exact hext
    · simp [hss]

theorem pipeline_run_inv (cs : List String) :
    ∀ (out : List (String × Option String)) (st : PipeState), PipeInv out st →
    PipeInv (out ++ (pipeline_run st cs).1) (pipeline_run st cs).2 := by
  induction cs with
  | nil =>
    intro out st h
    simpa [pipeline_run] using h
  | cons c cs ih =>
    intro out st h
    have hstep := pipeline_step_inv out st c h
    have hrest := ih (out ++ (pipeline_step st c).1) (pipeline_step st c).2 hstep
    simp only [pipeline_run]
    simpa [List.append_assoc] using hrest

set_option maxRecDepth 4000 in
/-- C4: the example token stream with a JSON expression prefix yields
`"Hello there."` with expression `"happy"` and then `"How are you?"` with no
expression; and in general every pair after the first yielded by
`_stream_response`'s sentence pipeline carries no expression, so an
extracted expression is attached to the first emitted sentence only. -/
theorem expression_attached_to_first_sentence_only :
    stream_pipeline
        ["\x7b\"expression\":\"happy\"\x7d\nHello there. How are you?"]
      = [("Hello there.", some "happy"), ("How are you?", none)]
    ∧ ∀ (chunks : List String) (p : String × Option String),
        p ∈ (stream_pipeline chunks).tail → p.2 = none := by
  constructor
  · decide
  · intro chunks p hp
    have hinv := pipeline_run_inv chunks [] PipeState.init
      ⟨by simp, by simp, by simp, fun _ => rfl⟩
    unfold stream_pipeline at hp
    rcases hrun : pipeline_run PipeState.init chunks with ⟨out, st⟩
    rw [hrun] at hinv hp
    dsimp only at hp
    simp only [List.nil_append] at hinv
    rcases hfl : AccState.flush st.acc with ⟨final, a2⟩
    rw [hfl] at hp
    dsimp only at hp
    by_cases hg : pyStrip final ≠ ""
    · rw [if_pos hg] at hp
      exact tail_append_prop (fun p => p.2 = none) out [(final, none)]
        hinv.1 (fun _ => by simp) (fun _ => by simp) p hp
    · rw [if_neg hg] at hp
      exact hinv.1 p hp

set_option maxRecDepth 4000 in
/-- Witness for C4's quantified part at the example stream: the second
emitted pair indeed carries no expression. -/
theorem expression_attached_to_first_sentence_only_witness :
    (("How are you?", (none : Option String)) : String × Option String).2
      = none :=
  expression_attached_to_first_sentence_only.2
    ["\x7b\"expression\":\"happy\"\x7d\nHello there. How are you?"]
    ("How are you?", none) (by decide)

/-- A string without any of `.`, `!`, `?`. -/
def punctFree (s : String) : Bool :=
  s.toList.all (fun c => !(c = '.' || c = '!' || c = '?'))

/-- Feeding a whole chunk sequence through `SentenceAccumulator.add_chunk`,
collecting every emitted sentence in order. -/
def acc_chunks_run (a : AccState) : List String → List String × AccState
  | [] => ([], a)
  | c :: cs =>
      let (ss, a1) := add_chunk a c
      let (ss2, a2) := acc_chunks_run a1 cs
      (ss ++ ss2, a2)

theorem punctFree_no_split : ∀ (cs : List Char),
    cs.all (fun c => !(c = '.' || c = '!' || c = '?')) = true →
    sentenceSplit cs = none := by
  intro cs
  induction cs with
  | nil => intro _; rfl
  | cons c rest ih =>
    intro h
    simp only [List.all_cons, Bool.and_eq_true] at h
    have hc : ¬(c = '.' ∨ c = '!' ∨ c = '?') := by
      intro hor
      rcases hor with h1 | h1 | h1 <;> subst h1 <;> simp at h
    rw [sentenceSplit.eq_def]
    simp only [hc, if_false]
    rw [ih h.2]

theorem punctFree_toList (s : String) (h : punctFree s = true) :
    s.toList.all (fun c => !(c = '.' || c = '!' || c = '?')) = true := h

theorem punctFree_append (s t : String) (hs : punctFree s = true)
    (ht : punctFree t = true) : punctFree (s ++ t) = true := by
  unfold punctFree at hs ht ⊢
  simp only [String.toList, String.data_append, List.all_append,
    Bool.and_eq_true]
  exact ⟨hs, ht⟩

/-- C5 per-call shape: when the combined buffer has no sentence-terminal
match, `add_chunk` emits the entire buffer as one sentence exactly when it
exceeds 400 characters, and otherwise just accumulates. -/
theorem add_chunk_no_match (a : AccState) (content : String)
    (hc : content ≠ "")
    (hnm : sentenceSplit (a.buffer ++ content).toList = none) :
    add_chunk a content =
      (if 400 < (a.buffer ++ content).length
       then ([a.buffer ++ content], { a with buffer := "" })
       else ([], { a with buffer := a.buffer ++ content })) := by
  unfold add_chunk
  rw [if_neg hc]
  dsimp only
  rw [splitLoop_eq, hnm]
  dsimp only
  have hlen : (a.buffer ++ content).toList.length
      = (a.buffer ++ content).length := rfl
  by_cases hb : 400 < (a.buffer ++ content).length
  · rw [if_pos (by rw [hlen]; exact hb), if_pos hb]
    have : String.mk (a.buffer ++ content).toList = a.buffer ++ content := by
      cases (a.buffer ++ content) with
      | mk data => rfl
    rw [this]
  · rw [if_neg (by rw [hlen]; exact hb), if_neg hb]
    have : String.mk (a.buffer ++ content).toList = a.buffer ++ content := by
      cases (a.buffer ++ content) with
      | mk data => rfl
    rw [this]

theorem string_empty_iff_len (s : String) : s = "" ↔ s.length = 0 := by
  cases s with
  | mk data =>
    cases data with
    | nil => simp
    | cons x xs =>
      constructor
      · intro h
        exact absurd (congrArg String.data h) (by simp)
      · intro h
        simp [String.length] at h

theorem acc_run_below : ∀ (chunks : List String) (a : AccState),
    punctFree a.buffer = true →
    (∀ c ∈ chunks, punctFree c = true) →
    a.buffer.length + (chunks.map String.length).sum ≤ 400 →
    (acc_chunks_run a chunks).1 = []
    ∧ punctFree (acc_chunks_run a chunks).2.buffer = true
    ∧ (acc_chunks_run a chunks).2.buffer.length
        = a.buffer.length + (chunks.map String.length).sum := by
  intro chunks
  induction chunks with
  | nil => intro a ha _ _; exact ⟨rfl, ha, by simp [acc_chunks_run]⟩
  | cons c cs ih =>
    intro a ha hall hsum
    simp only [List.map_cons, List.sum_cons] at hsum
    by_cases hc : c = ""
    · subst hc
      have hstep : add_chunk a "" = ([], a) := by unfold add_chunk; simp
      simp only [acc_chunks_run, hstep]
      have := ih a ha (fun x hx => hall x (List.mem_cons_of_mem _ hx))
        (by simpa using hsum)
      rcases hr : acc_chunks_run a cs with ⟨ss2, a2⟩
      rw [hr] at this
      simpa [hr] using this
    · have hpf : punctFree (a.buffer ++ c) = true :=
        punctFree_append a.buffer c ha (hall c (List.mem_cons_self c cs))
      have hnm : sentenceSplit (a.buffer ++ c).toList = none :=
        punctFree_no_split _ hpf
      have hlen : (a.buffer ++ c).length = a.buffer.length + c.length :=
        String.length_append _ _
      have hstep := add_chunk_no_match a c hc hnm
      rw [if_neg (by omega)] at hstep
      simp only [acc_chunks_run, hstep]
      have := ih { a with buffer := a.buffer ++ c } (by simpa using hpf)
        (fun x hx => hall x (List.mem_cons_of_mem _ hx))
        (by dsimp only; rw [hlen]; omega)
      rcases hr : acc_chunks_run { a with buffer := a.buffer ++ c } cs
        with ⟨ss2, a2⟩
      rw [hr] at this
      simp only [hr]
      refine ⟨by simpa using this.1, this.2.1, ?_⟩
      show a2.buffer.length
        = a.buffer.length + (c.length + (List.map String.length cs).sum)
      have h22 : a2.buffer.length = (a.buffer ++ c).length
          + (List.map String.length cs).sum := this.2.2
      rw [h22, hlen]
      omega

theorem acc_run_crossing : ∀ (chunks : List String) (a : AccState),
    punctFree a.buffer = true →
    (∀ c ∈ chunks, punctFree c = true) →
    a.buffer.length ≤ 400 →
    400 < a.buffer.length + (chunks.map String.length).sum →
    a.buffer.length + (chunks.map String.length).sum ≤ 800 →
    (acc_chunks_run a chunks).1.length = 1 := by
  intro chunks
  induction chunks with
  | nil => intro a _ _ hle hgt _; simp at hgt; omega
  | cons c cs ih =>
    intro a ha hall hle hgt htot
    simp only [List.map_cons, List.sum_cons] at hgt htot
    by_cases hc : c = ""
    · subst hc
      have hstep : add_chunk a "" = ([], a) := by unfold add_chunk; simp
      simp only [acc_chunks_run, hstep]
      have := ih a ha (fun x hx => hall x (List.mem_cons_of_mem _ hx)) hle
        (by simpa using hgt) (by simpa using htot)
      rcases hr : acc_chunks_run a cs with ⟨ss2, a2⟩
      rw [hr] at this
      simpa [hr] using this
    · have hpf : punctFree (a.buffer ++ c) = true :=
        punctFree_append a.buffer c ha (hall c (List.mem_cons_self c cs))
      have hnm : sentenceSplit (a.buffer ++ c).toList = none :=
        punctFree_no_split _ hpf
      have hlen : (a.buffer ++ c).length = a.buffer.length + c.length :=
        String.length_append _ _
      have hstep := add_chunk_no_match a c hc hnm
      by_cases hcross : 400 < (a.buffer ++ c).length
      · rw [if_pos hcross] at hstep
        simp only [acc_chunks_run, hstep]
        have hbelow := acc_run_below cs { a with buffer := "" } rfl
          (fun x hx => hall x (List.mem_cons_of_mem _ hx))
          (by dsimp only
              have h0 : ("" : String).length = 0 := rfl
              rw [h0]
              omega)
        rcases hr : acc_chunks_run { a with buffer := "" } cs with ⟨ss2, a2⟩
        rw [hr] at hbelow
        simp only [hr]
        have hss2 : ss2 = [] := hbelow.1
        rw [hss2]
        rfl
      · rw [if_neg hcross] at hstep
        simp only [acc_chunks_run, hstep]
        have := ih { a with buffer := a.buffer ++ c } (by simpa using hpf)
          (fun x hx => hall x (List.mem_cons_of_mem _ hx))
          (by dsimp only; omega)
          (by dsimp only; rw [hlen]; omega)
          (by dsimp only; rw [hlen]; omega)
        rcases hr : acc_chunks_run { a with buffer := a.buffer ++ c } cs
          with ⟨ss2, a2⟩
        rw [hr] at this
        simpa [hr] using this

set_option maxRecDepth 40000 in
/-- C5: when the accumulated buffer has no sentence-terminal punctuation
followed by whitespace or end-of-input, `add_chunk` emits the entire buffer
as exactly one sentence as soon as it exceeds 400 characters and emits
nothing before that; consequently any punctuation-free chunk stream whose
total length crosses 400 (up to 800) produces exactly one emitted sentence
from `add_chunk` alone — in particular a 500-character punctuation-free
stream, without waiting for the end-of-stream flush. -/
theorem forced_flush_bounds_latency :
    (∀ (a : AccState) (content : String), content ≠ "" →
      sentenceSplit (a.buffer ++ content).toList = none →
      (400 < (a.buffer ++ content).length →
        add_chunk a content
          = ([a.buffer ++ content], { a with buffer := "" }))
      ∧ ((a.buffer ++ content).length ≤ 400 →
        add_chunk a content
          = ([], { a with buffer := a.buffer ++ content })))
    ∧ (∀ chunks : List String, (∀ c ∈ chunks, punctFree c = true) →
        400 < (chunks.map String.length).sum →
        (chunks.map String.length).sum ≤ 800 →
        (acc_chunks_run AccState.init chunks).1.length = 1)
    ∧ acc_chunks_run AccState.init [String.mk (List.replicate 500 'a')]
        = ([String.mk (List.replicate 500 'a')], AccState.init) := by
  refine ⟨?_, ?_, by decide⟩
  · intro a content hc hnm
    have h := add_chunk_no_match a content hc hnm
    constructor
    · intro hgt
      rw [h, if_pos hgt]
    · intro hle
      rw [h, if_neg (by omega)]
  · intro chunks hall hgt htot
    have h0 : ("" : String).length = 0 := rfl
    exact acc_run_crossing chunks AccState.init rfl hall
      (by rw [show AccState.init.buffer = "" from rfl, h0]; omega)
      (by rw [show AccState.init.buffer = "" from rfl, h0]; omega)
      (by rw [show AccState.init.buffer = "" from rfl, h0]; omega)

set_option maxRecDepth 40000 in
/-- Witness for C5: a 500-character punctuation-free single-chunk stream
yields exactly one emitted sentence, and the per-call flush fires at a
concrete 401-character buffer. -/
theorem forced_flush_bounds_latency_witness :
    (acc_chunks_run AccState.init
        [String.mk (List.replicate 500 'a')]).1.length = 1
    ∧ add_chunk { AccState.init with
          buffer := String.mk (List.replicate 400 'b') } "b"
      = ([String.mk (List.replicate 400 'b') ++ "b"],
         { AccState.init with buffer := "" }) := by
  constructor
  · exact forced_flush_bounds_latency.2.1 [String.mk (List.replicate 500 'a')]
      (by decide) (by decide) (by decide)
  · exact (forced_flush_bounds_latency.1
      { AccState.init with buffer := String.mk (List.replicate 400 'b') } "b"
      (by decide) (by decide)).1 (by decide)
